import Mathlib

/-!
Verification of the typed trait-declaration core
(`sway-core/src/language/ty/declaration/trait.rs`): context-threaded
equality and hashing, type substitution with handle rewiring, deferred
finalization, and the monomorphization-helper surface.

Collaborator types that live outside this file (the declaration store,
declaration handles, type parameters, substitution maps) are modelled
from the spec; every operation on `TyTraitDecl`, `TyTraitInterfaceItem`
and `TyTraitItem` is translated from the source file.
-/

/-- Modelled from the spec: identifiers compare by their text (spans are
not part of identifier identity). -/
abbrev Ident := String

/-- Modelled from the spec: a source span, presentation metadata only. -/
structure Span where
  lo : Nat
  hi : Nat
deriving DecidableEq

/-- Modelled from the spec: a non-semantic attribute map, opaque metadata. -/
abbrev AttributesMap := List String

/-- Visibility flag of a declaration (`language::Visibility`). -/
inductive Visibility where
  | Private
  | Public
deriving DecidableEq

/-- Modelled from the spec: a generic type parameter carrying a name and
an interned type identity; compared structurally through the engines. -/
structure TypeParameter where
  name : Ident
  type_id : Nat
deriving DecidableEq

/-- Modelled from the spec: a parsed-level supertrait reference, not yet
resolved to a store handle. -/
structure Supertrait where
  name : Ident
deriving DecidableEq

/-- Modelled from the spec: the body of a declaration held in the
Declaration Store (function / constant / trait-fn / associated-type
bodies are abstracted to a nested type expression plus the optional
implementing-type back-reference carried by function bodies). -/
structure DeclBody where
  ty : Nat
  implementing_type : Option Nat
deriving DecidableEq

/-- The tagged identity used as key/value in a `DeclMapping`
(`decl_engine::AssociatedItemDeclId`): declaration ids are tagged by
declaration kind. -/
inductive AssociatedItemDeclId where
  | traitFn (id : Nat)
  | function (id : Nat)
  | constant (id : Nat)
  | traitType (id : Nat)
deriving DecidableEq

/-- Modelled from the spec: a Declaration Handle (`DeclRef`): identity
into the Declaration Store plus cached display name and span. -/
structure DeclRef where
  name : Ident
  id : Nat
  span : Span
deriving DecidableEq

/-- Modelled from the spec: one arena slot of the Declaration Store: the
authoritative body plus the optional parent association recorded by
insert-with-parent. -/
structure Slot where
  body : DeclBody
  parent : Option AssociatedItemDeclId
deriving DecidableEq

/-- Modelled from the spec: the Declaration Store: an arena of slots
addressed by stable indices; insertion appends and returns a fresh
identity. -/
structure DeclEngine where
  slots : List Slot
deriving DecidableEq

/-- Number of slots in the store; also the next fresh identity. -/
def DeclEngine.len (e : DeclEngine) : Nat := e.slots.length

/-- Modelled from the spec: get-by-handle. -/
def DeclEngine.get (e : DeclEngine) (i : Nat) : Option Slot := e.slots[i]?

/-- Body at a handle, with a default for the stale-handle
programming-error case (theorems carry validity hypotheses instead). -/
def DeclEngine.getBodyD (e : DeclEngine) (i : Nat) : DeclBody :=
  ((e.get i).map (fun s => s.body)).getD ⟨0, none⟩

/-- Modelled from the spec: insert-new returns the fresh identity and the
grown store. -/
def DeclEngine.insert (e : DeclEngine) (s : Slot) : Nat × DeclEngine :=
  (e.slots.length, ⟨e.slots ++ [s]⟩)

/-- Helper for in-place replacement of a body at an index. -/
def replaceBodyList : List Slot → Nat → DeclBody → List Slot
  | [], _, _ => []
  | s :: rest, 0, b => { s with body := b } :: rest
  | s :: rest, i+1, b => s :: replaceBodyList rest i b

/-- Modelled from the spec: `replace` overwrites the body at an existing
identity in place, preserving all outstanding copies of that handle. -/
def DeclEngine.replace (e : DeclEngine) (i : Nat) (b : DeclBody) : DeclEngine :=
  ⟨replaceBodyList e.slots i b⟩

/-- Modelled from the spec: the Type-Substitution Map from type-variable
identity to replacement type. -/
abbrev TypeSubstMap := List (Nat × Nat)

/-- Modelled from the spec: applying the substitution map to one interned
type identity. -/
def applySubstMap (m : TypeSubstMap) (t : Nat) : Nat :=
  match m.find? (fun p => p.fst == t) with
  | some p => p.snd
  | none => t

/-- Modelled from the spec: substituting the nested type expressions of a
stored declaration body. -/
def DeclBody.subst (b : DeclBody) (m : TypeSubstMap) : DeclBody :=
  { b with ty := applySubstMap m b.ty }

/-- Modelled from the spec: substituting the nested types of a type
parameter (a direct rewrite, type parameters are not handle-indirected). -/
def TypeParameter.subst (tp : TypeParameter) (m : TypeSubstMap) : TypeParameter :=
  { tp with type_id := applySubstMap m tp.type_id }

/-- `TyTraitInterfaceItem` (trait.rs lines 34-39); the `Type` variant is
spelled `Typ` because `Type` is a Lean keyword. -/
inductive TyTraitInterfaceItem where
  | TraitFn (r : DeclRef)
  | Constant (r : DeclRef)
  | Typ (r : DeclRef)
deriving DecidableEq

/-- `TyTraitItem` (trait.rs lines 41-46). -/
inductive TyTraitItem where
  | Fn (r : DeclRef)
  | Constant (r : DeclRef)
  | Typ (r : DeclRef)
deriving DecidableEq

/-- `TyTraitDecl` (trait.rs lines 21-32). -/
structure TyTraitDecl where
  name : Ident
  type_parameters : List TypeParameter
  self_type : TypeParameter
  interface_surface : List TyTraitInterfaceItem
  items : List TyTraitItem
  supertraits : List Supertrait
  visibility : Visibility
  attributes : AttributesMap
  span : Span
deriving DecidableEq

/-- Modelled from the spec: context-threaded equality of handles:
cached names compare directly, bodies compare after dereferencing
through the store (the cached span is not compared). -/
def DeclRef.eqWE (a b : DeclRef) (e : DeclEngine) : Bool :=
  a.name == b.name
    && ((e.get a.id).map (fun s => s.body) == (e.get b.id).map (fun s => s.body))

/-- Pairwise list equality under a comparison function (the Vec
comparison of the engine-threaded equality protocol). -/
def listEqWith (f : α → α → Bool) : List α → List α → Bool
  | [], [] => true
  | x :: xs, y :: ys => f x y && listEqWith f xs ys
  | _, _ => false

/-- `PartialEqWithEngines for TyTraitInterfaceItem` (trait.rs lines
97-110): TraitFn/TraitFn and Constant/Constant compare their refs; every
other pairing, including Typ/Typ, falls to the wildcard arm and is
`false`. -/
def TyTraitInterfaceItem.eqWE (a b : TyTraitInterfaceItem) (e : DeclEngine) : Bool :=
  match a, b with
  | .TraitFn id, .TraitFn other_id => id.eqWE other_id e
  | .Constant id, .Constant other_id => id.eqWE other_id e
  | _, _ => false

/-- `PartialEqWithEngines for TyTraitItem` (trait.rs lines 112-123):
Fn/Fn and Constant/Constant compare their refs; every other pairing,
including Typ/Typ, falls to the wildcard arm and is `false`. -/
def TyTraitItem.eqWE (a b : TyTraitItem) (e : DeclEngine) : Bool :=
  match a, b with
  | .Fn id, .Fn other_id => id.eqWE other_id e
  | .Constant id, .Constant other_id => id.eqWE other_id e
  | _, _ => false

/-- `PartialEqWithEngines for TyTraitDecl` (trait.rs lines 61-70):
compares name, type parameters, interface surface, items, supertraits
and visibility; `self_type`, `attributes` and `span` are not compared. -/
def TyTraitDecl.eqWE (a b : TyTraitDecl) (e : DeclEngine) : Bool :=
  a.name == b.name
    && (a.type_parameters == b.type_parameters)
    && listEqWith (fun x y => TyTraitInterfaceItem.eqWE x y e) a.interface_surface b.interface_surface
    && listEqWith (fun x y => TyTraitItem.eqWE x y e) a.items b.items
    && (a.supertraits == b.supertraits)
    && (a.visibility == b.visibility)

/-- Tokens fed to a hasher; hashing is modelled as the stream of tokens
written to the hash state, so equal streams mean equal hashes for every
hasher. -/
inductive HTok where
  | s (v : String)
  | n (v : Nat)
  | b (v : Bool)
deriving DecidableEq

/-- Token stream of an optional interned type. -/
def hashOptNat : Option Nat → List HTok
  | none => [.b false]
  | some k => [.b true, .n k]

/-- Token stream of a stored declaration body. -/
def DeclBody.hashT (b : DeclBody) : List HTok :=
  .n b.ty :: hashOptNat b.implementing_type

/-- Modelled from the spec: hashing a handle hashes the cached name and
the body dereferenced through the store (the cached span is excluded). -/
def DeclRef.hashWE (r : DeclRef) (e : DeclEngine) : List HTok :=
  .s r.name :: (match e.get r.id with
    | some sl => sl.body.hashT
    | none => [])

/-- Token stream of a type parameter. -/
def TypeParameter.hashT (tp : TypeParameter) : List HTok :=
  [.s tp.name, .n tp.type_id]

/-- Token stream of a supertrait reference. -/
def Supertrait.hashT (st : Supertrait) : List HTok := [.s st.name]

/-- Token stream of a visibility flag. -/
def Visibility.hashT : Visibility → List HTok
  | .Private => [.b false]
  | .Public => [.b true]

/-- `HashWithEngines for TyTraitInterfaceItem` (trait.rs lines 125-133):
each variant hashes its ref (no variant discriminant is hashed). -/
def TyTraitInterfaceItem.hashWE (it : TyTraitInterfaceItem) (e : DeclEngine) : List HTok :=
  match it with
  | .TraitFn fn_decl => fn_decl.hashWE e
  | .Constant const_decl => const_decl.hashWE e
  | .Typ type_decl => type_decl.hashWE e

/-- `HashWithEngines for TyTraitItem` (trait.rs lines 135-143). -/
def TyTraitItem.hashWE (it : TyTraitItem) (e : DeclEngine) : List HTok :=
  match it with
  | .Fn fn_decl => fn_decl.hashWE e
  | .Constant const_decl => const_decl.hashWE e
  | .Typ type_decl => type_decl.hashWE e

/-- Concatenated token stream of a list of hashed values. -/
def hashListT (f : α → List HTok) (l : List α) : List HTok := (l.map f).flatten

/-- `HashWithEngines for TyTraitDecl` (trait.rs lines 72-95): hashes
name, type parameters, `self_type`, interface surface, items,
supertraits and visibility; `attributes` and `span` are excluded. -/
def TyTraitDecl.hashWE (d : TyTraitDecl) (e : DeclEngine) : List HTok :=
  [HTok.s d.name]
    ++ hashListT TypeParameter.hashT d.type_parameters
    ++ d.self_type.hashT
    ++ hashListT (fun it => it.hashWE e) d.interface_surface
    ++ hashListT (fun it => TyTraitItem.hashWE it e) d.items
    ++ hashListT Supertrait.hashT d.supertraits
    ++ d.visibility.hashT

/-- `MonomorphizeHelper::name` (trait.rs lines 261-263). -/
def TyTraitDecl.mono_name (d : TyTraitDecl) : Ident := d.name

/-- `MonomorphizeHelper::type_parameters` (trait.rs lines 265-267). -/
def TyTraitDecl.mono_type_parameters (d : TyTraitDecl) : List TypeParameter :=
  d.type_parameters

/-- `MonomorphizeHelper::has_self_type_param` (trait.rs lines 269-271). -/
def TyTraitDecl.has_self_type_param (_d : TyTraitDecl) : Bool := true

/-- Key extractor on interface items: the ref identity regardless of
variant. -/
def TyTraitInterfaceItem.refId : TyTraitInterfaceItem → Nat
  | .TraitFn r => r.id
  | .Constant r => r.id
  | .Typ r => r.id

/-- Key extractor on provided items: the ref identity regardless of
variant. -/
def TyTraitItem.refId : TyTraitItem → Nat
  | .Fn r => r.id
  | .Constant r => r.id
  | .Typ r => r.id

/-- Variant discriminant of an interface item. -/
def TyTraitInterfaceItem.tag : TyTraitInterfaceItem → Nat
  | .TraitFn _ => 0
  | .Constant _ => 1
  | .Typ _ => 2

/-- Variant discriminant of a provided item. -/
def TyTraitItem.tag : TyTraitItem → Nat
  | .Fn _ => 0
  | .Constant _ => 1
  | .Typ _ => 2

/-- The Declaration Mapping from old tagged handle identity to new tagged
handle identity (`decl_engine::mapping::DeclMapping`). -/
abbrev DeclMapping := List (AssociatedItemDeclId × AssociatedItemDeclId)

/-- `DeclMapping::insert`: records one old-to-new correspondence. -/
def DeclMapping.insert (dm : DeclMapping) (k v : AssociatedItemDeclId) : DeclMapping :=
  dm ++ [(k, v)]

/-- Modelled from the spec: clone the handle's target, substitute its
nested types, insert the clone as a standalone new store entry, and
return the handle rewritten to the fresh identity. -/
def subst_types_and_insert_new (r : DeclRef) (m : TypeSubstMap) (e : DeclEngine) :
    DeclRef × DeclEngine :=
  let p := e.insert ⟨(e.getBodyD r.id).subst m, none⟩
  ({ r with id := p.1 }, p.2)

/-- Modelled from the spec: same as `subst_types_and_insert_new` but the
fresh entry is associated with the old handle as parent for
traceability. -/
def subst_types_and_insert_new_with_parent (r : DeclRef) (pk : AssociatedItemDeclId)
    (m : TypeSubstMap) (e : DeclEngine) : DeclRef × DeclEngine :=
  let p := e.insert ⟨(e.getBodyD r.id).subst m, some pk⟩
  ({ r with id := p.1 }, p.2)

/-- One arm of the interface-surface loop of `SubstTypes for TyTraitDecl`
(trait.rs lines 187-210): TraitFn inserts with parent and records the
old-to-new pair in the mapping; Constant inserts standalone and records
the pair; Typ inserts standalone and does not touch the mapping. -/
def substInterfaceItem (it : TyTraitInterfaceItem) (m : TypeSubstMap) (e : DeclEngine)
    (dm : DeclMapping) : TyTraitInterfaceItem × DeclEngine × DeclMapping :=
  match it with
  | .TraitFn item_ref =>
    let p := subst_types_and_insert_new_with_parent item_ref (.traitFn item_ref.id) m e
    (.TraitFn p.1, p.2, dm.insert (.traitFn item_ref.id) (.traitFn p.1.id))
  | .Constant decl_ref =>
    let p := subst_types_and_insert_new decl_ref m e
    (.Constant p.1, p.2, dm.insert (.constant decl_ref.id) (.constant p.1.id))
  | .Typ decl_ref =>
    let p := subst_types_and_insert_new decl_ref m e
    (.Typ p.1, p.2, dm)

/-- The interface-surface loop, threading the store and the mapping
through the items in order. -/
def substInterfaceSurface (m : TypeSubstMap) :
    List TyTraitInterfaceItem → DeclEngine → DeclMapping →
    List TyTraitInterfaceItem × DeclEngine × DeclMapping
  | [], e, dm => ([], e, dm)
  | it :: rest, e, dm =>
    let h := substInterfaceItem it m e dm
    let t := substInterfaceSurface m rest h.2.1 h.2.2
    (h.1 :: t.1, t.2.1, t.2.2)

/-- One arm of the items loop of `SubstTypes for TyTraitDecl` (trait.rs
lines 211-230): every variant clones, substitutes, inserts with parent,
and rewrites the handle on the item; none touches the mapping. -/
def substTraitItem (it : TyTraitItem) (m : TypeSubstMap) (e : DeclEngine) :
    TyTraitItem × DeclEngine :=
  match it with
  | .Fn item_ref =>
    let p := subst_types_and_insert_new_with_parent item_ref (.function item_ref.id) m e
    (.Fn p.1, p.2)
  | .Constant item_ref =>
    let p := subst_types_and_insert_new_with_parent item_ref (.constant item_ref.id) m e
    (.Constant p.1, p.2)
  | .Typ item_ref =>
    let p := subst_types_and_insert_new_with_parent item_ref (.traitType item_ref.id) m e
    (.Typ p.1, p.2)

/-- The items loop, threading the store through the items in order. -/
def substItems (m : TypeSubstMap) :
    List TyTraitItem → DeclEngine → List TyTraitItem × DeclEngine
  | [], e => ([], e)
  | it :: rest, e =>
    let h := substTraitItem it m e
    let t := substItems m rest h.2
    (h.1 :: t.1, t.2)

/-- `SubstTypes::subst_inner for TyTraitDecl` (trait.rs lines 181-232),
with the local `decl_mapping` kept as a third result component so that
its contents can be stated; the Rust function's own return type is unit
and the mapping is dropped when the function returns. -/
def subst_inner_full (d : TyTraitDecl) (m : TypeSubstMap) (e : DeclEngine) :
    TyTraitDecl × DeclEngine × DeclMapping :=
  let s := substInterfaceSurface m d.interface_surface e []
  let t := substItems m d.items s.2.1
  ({ d with
      type_parameters := d.type_parameters.map (fun tp => tp.subst m),
      interface_surface := s.1,
      items := t.1 }, t.2, s.2.2)

/-- The interface-surface loop without the mapping accumulator: the
caller-visible effect of trait.rs lines 187-210 (the mapping is a local
of `subst_inner` that no output depends on). -/
def substInterfaceSurfaceNM (m : TypeSubstMap) :
    List TyTraitInterfaceItem → DeclEngine → List TyTraitInterfaceItem × DeclEngine
  | [], e => ([], e)
  | it :: rest, e =>
    let h := substInterfaceItem it m e []
    let t := substInterfaceSurfaceNM m rest h.2.1
    (h.1 :: t.1, t.2)

/-- `SubstTypes::subst_inner for TyTraitDecl` (trait.rs lines 181-232) as
the caller observes it: the Rust function mutates `self` and the store
through `&Engines` and returns unit, so its caller-visible result is the
rewritten declaration together with the grown store. -/
def subst_inner (d : TyTraitDecl) (m : TypeSubstMap) (e : DeclEngine) :
    TyTraitDecl × DeclEngine :=
  let s := substInterfaceSurfaceNM m d.interface_surface e
  let t := substItems m d.items s.2
  ({ d with
      type_parameters := d.type_parameters.map (fun tp => tp.subst m),
      interface_surface := s.1,
      items := t.1 }, t.2)

/-- `TypeCheckFinalization for TyTraitItem` (trait.rs lines 145-169).
The deferred finalization of a stored body is external work modelled
from the spec and passed in as `fin`; `Except Unit` models
`Result<(), ErrorEmitted>`. Fn and Constant fetch the body by handle,
finalize it, and on success write it back via `replace` on the same
handle (on failure the `?` operator propagates the error before the
`replace`); Typ has nothing to finalize. -/
def type_check_finalize (fin : DeclBody → Except Unit DeclBody)
    (it : TyTraitItem) (e : DeclEngine) : Except Unit DeclEngine :=
  match it with
  | .Fn node =>
    match fin (e.getBodyD node.id) with
    | .ok item_fn => .ok (e.replace node.id item_fn)
    | .error u => .error u
  | .Constant node =>
    match fin (e.getBodyD node.id) with
    | .ok item_const => .ok (e.replace node.id item_const)
    | .error u => .error u
  | .Typ _node => .ok e

/-- Modelled from the spec: replacing the implementing type on a function
handle fetches the function body, sets its implementing-type
back-reference, and replaces the body at the same identity. -/
def DeclRef.replace_implementing_type (r : DeclRef) (t : Nat) (e : DeclEngine) : DeclEngine :=
  e.replace r.id { e.getBodyD r.id with implementing_type := some t }

/-- `ReplaceFunctionImplementingType for TyTraitItem` (trait.rs lines
244-258): only the Fn variant acts; Constant and Typ are ignored. -/
def TyTraitItem.replace_implementing_type (it : TyTraitItem) (t : Nat) (e : DeclEngine) :
    TyTraitItem × DeclEngine :=
  match it with
  | .Fn decl_ref => (.Fn decl_ref, decl_ref.replace_implementing_type t e)
  | .Constant decl_ref => (.Constant decl_ref, e)
  | .Typ decl_ref => (.Typ decl_ref, e)

/-- Well-formedness of a declaration against a store: every handle in the
interface surface and the items is a live store identity. -/
def handlesValid (d : TyTraitDecl) (e : DeclEngine) : Bool :=
  d.interface_surface.all (fun it => decide (it.refId < e.len))
    && d.items.all (fun it => decide (TyTraitItem.refId it < e.len))

/-- A zero span used by concrete inputs. -/
def sp0 : Span := ⟨0, 0⟩

/-- Concrete store holding one associated-type body, for evaluating the
item equality at a Typ/Typ pair. -/
def eC1 : DeclEngine := ⟨[⟨⟨5, none⟩, none⟩]⟩

/-- Concrete handle to slot 0 of `eC1`. -/
def rC1 : DeclRef := ⟨"a", 0, sp0⟩

/-- C1: the claim says item equality returns true exactly when both items
are the same variant with context-equal dereferenced bodies, so in
particular two associated-type items with context-equal bodies compare
equal. The code disagrees: the wildcard arm of both item equalities
returns false for every Typ/Typ pair, here evaluated on two literally
identical associated-type items whose handles dereference to equal
bodies (the handle even compares equal to itself under the context). -/
theorem trait_item_assoc_type_eq_always_false :
    TyTraitInterfaceItem.eqWE (.Typ rC1) (.Typ rC1) eC1 = false
      ∧ TyTraitItem.eqWE (.Typ rC1) (.Typ rC1) eC1 = false
      ∧ DeclRef.eqWE rC1 rC1 eC1 = true
      ∧ TyTraitInterfaceItem.eqWE (.TraitFn rC1) (.TraitFn rC1) eC1 = true
      ∧ TyTraitItem.eqWE (.Constant rC1) (.Constant rC1) eC1 = true := by
  decide

/-- Empty concrete store. -/
def eC2 : DeclEngine := ⟨[]⟩

/-- Concrete trait declaration with self-type parameter of type id 0. -/
def dC2a : TyTraitDecl :=
  ⟨"t", [], ⟨"s", 0⟩, [], [], [], .Public, [], sp0⟩

/-- The same declaration as `dC2a` except that its self-type parameter
has type id 1. -/
def dC2b : TyTraitDecl :=
  ⟨"t", [], ⟨"s", 1⟩, [], [], [], .Public, [], sp0⟩

/-- C2: the claim says equality implies equal hashes. The code disagrees:
`eq` for `TyTraitDecl` never compares `self_type` while `hash` does hash
`self_type`, so two declarations differing only in their self type
compare equal yet feed different streams to the hasher. -/
theorem trait_decl_eq_hash_inconsistent_on_self_type :
    TyTraitDecl.eqWE dC2a dC2b eC2 = true
      ∧ dC2a.self_type ≠ dC2b.self_type
      ∧ TyTraitDecl.hashWE dC2a eC2 ≠ TyTraitDecl.hashWE dC2b eC2 := by
  decide

/-- Concrete store holding one associated-type body, for the span and
attribute insensitivity check. -/
def eC7 : DeclEngine := ⟨[⟨⟨3, none⟩, none⟩]⟩

/-- Concrete trait declaration whose interface surface contains one
associated-type entry. -/
def dC7a : TyTraitDecl :=
  ⟨"t", [⟨"p", 4⟩], ⟨"s", 0⟩, [.Typ ⟨"a", 0, sp0⟩], [], [⟨"u"⟩], .Public, [], sp0⟩

/-- The same declaration as `dC7a` with a different span and a different
attribute map, and nothing else changed. -/
def dC7b : TyTraitDecl :=
  { dC7a with attributes := ["x"], span := ⟨9, 9⟩ }

/-- C7: the claim says two trait declarations differing only in span and
attributes compare equal and hash equally. The hash half holds (spans
and attributes are never hashed), but equality fails on this pair:
because the declaration carries an associated-type interface entry and
the item equality returns false for every Typ/Typ pair, the two
declarations compare unequal although they differ only in span and
attributes. -/
theorem eq_not_span_attr_insensitive_with_assoc_type :
    TyTraitDecl.eqWE dC7a dC7b eC7 = false
      ∧ dC7a.span ≠ dC7b.span
      ∧ dC7a.attributes ≠ dC7b.attributes
      ∧ dC7a.name = dC7b.name
      ∧ dC7a.type_parameters = dC7b.type_parameters
      ∧ dC7a.self_type = dC7b.self_type
      ∧ dC7a.interface_surface = dC7b.interface_surface
      ∧ dC7a.items = dC7b.items
      ∧ dC7a.supertraits = dC7b.supertraits
      ∧ dC7a.visibility = dC7b.visibility
      ∧ TyTraitDecl.hashWE dC7a eC7 = TyTraitDecl.hashWE dC7b eC7 := by
  decide

/-- C9: the monomorphization helper of a trait declaration always reports
an implicit self-type parameter, and its name and type-parameter
accessors return exactly the stored fields. -/
theorem monomorphize_helper_accessors (d : TyTraitDecl) :
    d.has_self_type_param = true
      ∧ d.mono_name = d.name
      ∧ d.mono_type_parameters = d.type_parameters :=
  ⟨rfl, rfl, rfl⟩

/-- C10: replacing the implementing type on a constant-variant or
associated-type-variant trait item leaves both the item and the entire
store unchanged (only the function variant acts). -/
theorem replace_implementing_type_frame (r : DeclRef) (t : Nat) (e : DeclEngine) :
    TyTraitItem.replace_implementing_type (.Constant r) t e = (.Constant r, e)
      ∧ TyTraitItem.replace_implementing_type (.Typ r) t e = (.Typ r, e) :=
  ⟨rfl, rfl⟩

/-- An index lookup that returns a value witnesses membership. -/
theorem mem_of_idx {α : Type} {l : List α} {n : Nat} {a : α} (h : l[n]? = some a) :
    a ∈ l := by
  obtain ⟨hlt, hg⟩ := List.getElem?_eq_some_iff.mp h
  exact hg ▸ List.getElem_mem hlt

/-- Substituting one interface item grows the store by exactly one slot. -/
theorem substInterfaceItem_len (it : TyTraitInterfaceItem) (m : TypeSubstMap)
    (e : DeclEngine) (dm : DeclMapping) :
    (substInterfaceItem it m e dm).2.1.len = e.len + 1 := by
  cases it <;> simp [substInterfaceItem, subst_types_and_insert_new,
    subst_types_and_insert_new_with_parent, DeclEngine.insert, DeclEngine.len]

/-- The rewritten interface item carries the fresh identity of the store
it was inserted into. -/
theorem substInterfaceItem_refId (it : TyTraitInterfaceItem) (m : TypeSubstMap)
    (e : DeclEngine) (dm : DeclMapping) :
    (substInterfaceItem it m e dm).1.refId = e.len := by
  cases it <;> simp [substInterfaceItem, subst_types_and_insert_new,
    subst_types_and_insert_new_with_parent, DeclEngine.insert, DeclEngine.len,
    TyTraitInterfaceItem.refId]

/-- Substituting one interface item preserves its variant. -/
theorem substInterfaceItem_tag (it : TyTraitInterfaceItem) (m : TypeSubstMap)
    (e : DeclEngine) (dm : DeclMapping) :
    (substInterfaceItem it m e dm).1.tag = it.tag := by
  cases it <;> simp [substInterfaceItem, subst_types_and_insert_new,
    subst_types_and_insert_new_with_parent, TyTraitInterfaceItem.tag]

/-- Substituting one interface item either leaves the mapping unchanged
(the Typ arm) or appends one trait-fn or constant old-to-new pair. -/
theorem substInterfaceItem_mapping (it : TyTraitInterfaceItem) (m : TypeSubstMap)
    (e : DeclEngine) (dm : DeclMapping) :
    (substInterfaceItem it m e dm).2.2 = dm
      ∨ ∃ kv, (substInterfaceItem it m e dm).2.2 = dm ++ [kv]
          ∧ ((∃ a b, kv = (AssociatedItemDeclId.traitFn a, AssociatedItemDeclId.traitFn b))
              ∨ (∃ a b, kv = (AssociatedItemDeclId.constant a, AssociatedItemDeclId.constant b))) := by
  cases it with
  | TraitFn r =>
    right
    exact ⟨_, rfl, Or.inl ⟨r.id, _, rfl⟩⟩
  | Constant r =>
    right
    exact ⟨_, rfl, Or.inr ⟨r.id, _, rfl⟩⟩
  | Typ r => left; rfl

/-- The interface loop preserves the item count and grows the store by
one slot per item. -/
theorem substInterfaceSurface_len (m : TypeSubstMap) (l : List TyTraitInterfaceItem) :
    ∀ e dm, (substInterfaceSurface m l e dm).1.length = l.length
      ∧ (substInterfaceSurface m l e dm).2.1.len = e.len + l.length := by
  induction l with
  | nil => intro e dm; simp [substInterfaceSurface]
  | cons it rest ih =>
    intro e dm
    have h1 := substInterfaceItem_len it m e dm
    have h2 := ih (substInterfaceItem it m e dm).2.1 (substInterfaceItem it m e dm).2.2
    refine ⟨?_, ?_⟩
    · simp [substInterfaceSurface, h2.1]
    · simp only [substInterfaceSurface]
      rw [h2.2, h1]
      simp
      omega

/-- Every rewritten interface item holds a store identity that is fresh
relative to the store the loop started from: the item at position `i`
gets identity `e.len + i`. -/
theorem substInterfaceSurface_ids (m : TypeSubstMap) (l : List TyTraitInterfaceItem) :
    ∀ e dm i it2, (substInterfaceSurface m l e dm).1[i]? = some it2 →
      it2.refId = e.len + i := by
  induction l with
  | nil => intro e dm i it2 h; simp [substInterfaceSurface] at h
  | cons it rest ih =>
    intro e dm i it2 h
    simp only [substInterfaceSurface] at h
    cases i with
    | zero =>
      rw [List.getElem?_cons_zero] at h
      injection h with h
      rw [← h, substInterfaceItem_refId]
      omega
    | succ n =>
      rw [List.getElem?_cons_succ] at h
      have := ih (substInterfaceItem it m e dm).2.1 (substInterfaceItem it m e dm).2.2 n it2 h
      rw [this, substInterfaceItem_len]
      omega

/-- The interface loop preserves the variant of every item pointwise. -/
theorem substInterfaceSurface_tags (m : TypeSubstMap) (l : List TyTraitInterfaceItem) :
    ∀ (e : DeclEngine) (dm : DeclMapping) (i : Nat) (it it2 : TyTraitInterfaceItem),
      l[i]? = some it →
      (substInterfaceSurface m l e dm).1[i]? = some it2 → it2.tag = it.tag := by
  induction l with
  | nil => intro e dm i it it2 h; simp at h
  | cons hd rest ih =>
    intro e dm i it it2 h h2
    simp only [substInterfaceSurface] at h2
    cases i with
    | zero =>
      rw [List.getElem?_cons_zero] at h h2
      injection h with h
      injection h2 with h2
      rw [← h, ← h2, substInterfaceItem_tag]
    | succ n =>
      rw [List.getElem?_cons_succ] at h h2
      exact ih (substInterfaceItem hd m e dm).2.1 (substInterfaceItem hd m e dm).2.2 n it it2 h h2

/-- Entries already present in the mapping survive the interface loop. -/
theorem substInterfaceSurface_mapping_mono (m : TypeSubstMap) (l : List TyTraitInterfaceItem) :
    ∀ e dm kv, kv ∈ dm → kv ∈ (substInterfaceSurface m l e dm).2.2 := by
  induction l with
  | nil => intro e dm kv h; simpa [substInterfaceSurface] using h
  | cons it rest ih =>
    intro e dm kv h
    simp only [substInterfaceSurface]
    apply ih
    rcases substInterfaceItem_mapping it m e dm with h1 | ⟨kv2, h1, _⟩ <;> rw [h1]
    · exact h
    · exact List.mem_append_left _ h

/-- Every entry the interface loop adds to the mapping is keyed by a
trait-fn or a constant identity (never by an associated-type identity). -/
theorem substInterfaceSurface_keys (m : TypeSubstMap) (l : List TyTraitInterfaceItem) :
    ∀ e dm kv, kv ∈ (substInterfaceSurface m l e dm).2.2 →
      kv ∈ dm
        ∨ (∃ a b, kv = (AssociatedItemDeclId.traitFn a, AssociatedItemDeclId.traitFn b))
        ∨ (∃ a b, kv = (AssociatedItemDeclId.constant a, AssociatedItemDeclId.constant b)) := by
  induction l with
  | nil =>
    intro e dm kv h
    simp only [substInterfaceSurface] at h
    exact Or.inl h
  | cons it rest ih =>
    intro e dm kv h
    simp only [substInterfaceSurface] at h
    rcases ih (substInterfaceItem it m e dm).2.1 (substInterfaceItem it m e dm).2.2 kv h with
      h2 | h2 | h2
    · rcases substInterfaceItem_mapping it m e dm with h1 | ⟨kv2, h1, hshape⟩
      · rw [h1] at h2; exact Or.inl h2
      · rw [h1] at h2
        rcases List.mem_append.mp h2 with h3 | h3
        · exact Or.inl h3
        · have hk : kv = kv2 := by simpa using h3
          rw [hk]
          exact Or.inr hshape
    · exact Or.inr (Or.inl h2)
    · exact Or.inr (Or.inr h2)

/-- Every trait-fn interface entry is recorded in the mapping, keyed by
its old identity and mapped to the identity of the rewritten entry at
the same position. -/
theorem substInterfaceSurface_traitFn (m : TypeSubstMap) (l : List TyTraitInterfaceItem) :
    ∀ (e : DeclEngine) (dm : DeclMapping) (i : Nat) (r : DeclRef),
      l[i]? = some (.TraitFn r) →
      ∃ r2, (substInterfaceSurface m l e dm).1[i]? = some (.TraitFn r2)
        ∧ (AssociatedItemDeclId.traitFn r.id, AssociatedItemDeclId.traitFn r2.id)
            ∈ (substInterfaceSurface m l e dm).2.2 := by
  induction l with
  | nil => intro e dm i r h; simp at h
  | cons hd rest ih =>
    intro e dm i r h
    cases i with
    | zero =>
      rw [List.getElem?_cons_zero] at h
      injection h with h
      subst h
      simp only [substInterfaceSurface, substInterfaceItem]
      refine ⟨(subst_types_and_insert_new_with_parent r (.traitFn r.id) m e).1,
        by rw [List.getElem?_cons_zero], ?_⟩
      apply substInterfaceSurface_mapping_mono
      simp [DeclMapping.insert]
    | succ n =>
      rw [List.getElem?_cons_succ] at h
      obtain ⟨r2, h1, h2⟩ :=
        ih (substInterfaceItem hd m e dm).2.1 (substInterfaceItem hd m e dm).2.2 n r h
      refine ⟨r2, ?_, ?_⟩
      · simp only [substInterfaceSurface, List.getElem?_cons_succ]
        exact h1
      · simp only [substInterfaceSurface]
        exact h2

/-- Every constant interface entry is recorded in the mapping, keyed by
its old identity and mapped to the identity of the rewritten entry at
the same position. -/
theorem substInterfaceSurface_constant (m : TypeSubstMap) (l : List TyTraitInterfaceItem) :
    ∀ (e : DeclEngine) (dm : DeclMapping) (i : Nat) (r : DeclRef),
      l[i]? = some (.Constant r) →
      ∃ r2, (substInterfaceSurface m l e dm).1[i]? = some (.Constant r2)
        ∧ (AssociatedItemDeclId.constant r.id, AssociatedItemDeclId.constant r2.id)
            ∈ (substInterfaceSurface m l e dm).2.2 := by
  induction l with
  | nil => intro e dm i r h; simp at h
  | cons hd rest ih =>
    intro e dm i r h
    cases i with
    | zero =>
      rw [List.getElem?_cons_zero] at h
      injection h with h
      subst h
      simp only [substInterfaceSurface, substInterfaceItem]
      refine ⟨(subst_types_and_insert_new r m e).1,
        by rw [List.getElem?_cons_zero], ?_⟩
      apply substInterfaceSurface_mapping_mono
      simp [DeclMapping.insert]
    | succ n =>
      rw [List.getElem?_cons_succ] at h
      obtain ⟨r2, h1, h2⟩ :=
        ih (substInterfaceItem hd m e dm).2.1 (substInterfaceItem hd m e dm).2.2 n r h
      refine ⟨r2, ?_, ?_⟩
      · simp only [substInterfaceSurface, List.getElem?_cons_succ]
        exact h1
      · simp only [substInterfaceSurface]
        exact h2

/-- Substituting one provided item grows the store by exactly one slot. -/
theorem substTraitItem_len (it : TyTraitItem) (m : TypeSubstMap) (e : DeclEngine) :
    (substTraitItem it m e).2.len = e.len + 1 := by
  cases it <;> simp [substTraitItem, subst_types_and_insert_new_with_parent,
    DeclEngine.insert, DeclEngine.len]

/-- The rewritten provided item carries the fresh identity of the store
it was inserted into. -/
theorem substTraitItem_refId (it : TyTraitItem) (m : TypeSubstMap) (e : DeclEngine) :
    TyTraitItem.refId (substTraitItem it m e).1 = e.len := by
  cases it <;> simp [substTraitItem, subst_types_and_insert_new_with_parent,
    DeclEngine.insert, DeclEngine.len, TyTraitItem.refId]

/-- Substituting one provided item preserves its variant. -/
theorem substTraitItem_tag (it : TyTraitItem) (m : TypeSubstMap) (e : DeclEngine) :
    ((substTraitItem it m e).1).tag = it.tag := by
  cases it <;> simp [substTraitItem, subst_types_and_insert_new_with_parent,
    TyTraitItem.tag]

/-- The items loop preserves the item count and grows the store by one
slot per item. -/
theorem substItems_len (m : TypeSubstMap) (l : List TyTraitItem) :
    ∀ e, (substItems m l e).1.length = l.length
      ∧ (substItems m l e).2.len = e.len + l.length := by
  induction l with
  | nil => intro e; simp [substItems]
  | cons it rest ih =>
    intro e
    have h1 := substTraitItem_len it m e
    have h2 := ih (substTraitItem it m e).2
    refine ⟨?_, ?_⟩
    · simp [substItems, h2.1]
    · simp only [substItems]
      rw [h2.2, h1]
      simp
      omega

/-- Every rewritten provided item holds a store identity that is fresh
relative to the store the loop started from: the item at position `i`
gets identity `e.len + i`. -/
theorem substItems_ids (m : TypeSubstMap) (l : List TyTraitItem) :
    ∀ (e : DeclEngine) (i : Nat) (it2 : TyTraitItem),
      (substItems m l e).1[i]? = some it2 → TyTraitItem.refId it2 = e.len + i := by
  induction l with
  | nil => intro e i it2 h; simp [substItems] at h
  | cons it rest ih =>
    intro e i it2 h
    simp only [substItems] at h
    cases i with
    | zero =>
      rw [List.getElem?_cons_zero] at h
      injection h with h
      rw [← h, substTraitItem_refId]
      omega
    | succ n =>
      rw [List.getElem?_cons_succ] at h
      have := ih (substTraitItem it m e).2 n it2 h
      rw [this, substTraitItem_len]
      omega

/-- The items loop preserves the variant of every item pointwise. -/
theorem substItems_tags (m : TypeSubstMap) (l : List TyTraitItem) :
    ∀ (e : DeclEngine) (i : Nat) (it it2 : TyTraitItem),
      l[i]? = some it → (substItems m l e).1[i]? = some it2 → it2.tag = it.tag := by
  induction l with
  | nil => intro e i it it2 h; simp at h
  | cons hd rest ih =>
    intro e i it it2 h h2
    simp only [substItems] at h2
    cases i with
    | zero =>
      rw [List.getElem?_cons_zero] at h h2
      injection h with h
      injection h2 with h2
      rw [← h, ← h2, substTraitItem_tag]
    | succ n =>
      rw [List.getElem?_cons_succ] at h h2
      exact ih (substTraitItem hd m e).2 n it it2 h h2

/-- The mapping-free interface loop computes exactly the first two
components of the mapping-threading interface loop, for every starting
mapping: the mapping accumulator influences nothing the caller can see. -/
theorem substInterfaceSurfaceNM_eq (m : TypeSubstMap) (l : List TyTraitInterfaceItem) :
    ∀ (e : DeclEngine) (dm : DeclMapping),
      substInterfaceSurfaceNM m l e
        = ((substInterfaceSurface m l e dm).1, (substInterfaceSurface m l e dm).2.1) := by
  induction l with
  | nil => intro e dm; rfl
  | cons it rest ih =>
    intro e dm
    have hh : (substInterfaceItem it m e []).1 = (substInterfaceItem it m e dm).1
        ∧ (substInterfaceItem it m e []).2.1 = (substInterfaceItem it m e dm).2.1 := by
      cases it <;> simp [substInterfaceItem]
    simp only [substInterfaceSurfaceNM, substInterfaceSurface]
    rw [hh.1, hh.2, ih (substInterfaceItem it m e dm).2.1 (substInterfaceItem it m e dm).2.2]

/-- The caller-visible substitution is the projection of the full
computation that forgets the declaration mapping. -/
theorem subst_inner_eq_full (d : TyTraitDecl) (m : TypeSubstMap) (e : DeclEngine) :
    subst_inner d m e = ((subst_inner_full d m e).1, (subst_inner_full d m e).2.1) := by
  simp only [subst_inner, subst_inner_full]
  rw [substInterfaceSurfaceNM_eq m d.interface_surface e []]

/-- Concrete substitution map used by the items-path inputs. -/
def mC3 : TypeSubstMap := [(0, 1)]

/-- Concrete one-slot store for the items-path inputs. -/
def eC3 : DeclEngine := ⟨[⟨⟨0, none⟩, none⟩]⟩

/-- Concrete trait declaration with an empty interface surface and one
provided function item. -/
def dC3 : TyTraitDecl :=
  ⟨"t", [], ⟨"s", 0⟩, [], [.Fn ⟨"f", 0, sp0⟩], [], .Public, [], sp0⟩

/-- C3 counterexample: the claim says every provided-item old handle
appears as a key in the Declaration Mapping produced by the items path.
On a declaration whose only member is a provided function item, the
mapping produced by the whole substitution is empty: the items loop of
`subst_inner` never inserts into the mapping. -/
theorem items_path_inserts_nothing_in_decl_mapping :
    (subst_inner_full dC3 mC3 eC3).2.2 = [] ∧ dC3.items ≠ [] := by decide

/-- C3 as amended: the items path inserts nothing into the Declaration
Mapping (the mapping after the whole substitution is exactly the one
built by the interface-surface loop); instead every provided item, for
all three variants, has its handle rewritten in place to the identity of
the freshly inserted substituted clone. -/
theorem items_path_rewrites_handles_without_mapping
    (d : TyTraitDecl) (m : TypeSubstMap) (e : DeclEngine) (hv : handlesValid d e = true) :
    (subst_inner_full d m e).2.2 = (substInterfaceSurface m d.interface_surface e []).2.2
      ∧ (∀ (i : Nat) (it it2 : TyTraitItem),
          d.items[i]? = some it →
          (subst_inner_full d m e).1.items[i]? = some it2 →
          it2.tag = it.tag ∧ TyTraitItem.refId it2 ≠ TyTraitItem.refId it) := by
  simp only [handlesValid, Bool.and_eq_true, List.all_eq_true, decide_eq_true_eq] at hv
  refine ⟨rfl, ?_⟩
  intro i it it2 h1 h2
  have hitems : (subst_inner_full d m e).1.items
      = (substItems m d.items (substInterfaceSurface m d.interface_surface e []).2.1).1 := rfl
  rw [hitems] at h2
  refine ⟨substItems_tags m d.items _ i it it2 h1 h2, ?_⟩
  have hnew := substItems_ids m d.items _ i it2 h2
  have hold : TyTraitItem.refId it < e.len := hv.2 it (mem_of_idx h1)
  have hlen := (substInterfaceSurface_len m d.interface_surface e []).2
  omega

/-- Closed instance of the amended C3 statement at a concrete input. -/
theorem items_path_rewrites_handles_without_mapping_witness :
    handlesValid dC3 eC3 = true
      ∧ (subst_inner_full dC3 mC3 eC3).2.2
          = (substInterfaceSurface mC3 dC3.interface_surface eC3 []).2.2
      ∧ (TyTraitItem.tag (.Fn ⟨"f", 1, sp0⟩) = TyTraitItem.tag (.Fn ⟨"f", 0, sp0⟩)
          ∧ TyTraitItem.refId (.Fn ⟨"f", 1, sp0⟩) ≠ TyTraitItem.refId (.Fn ⟨"f", 0, sp0⟩)) :=
  ⟨by decide,
   (items_path_rewrites_handles_without_mapping dC3 mC3 eC3 (by decide)).1,
   (items_path_rewrites_handles_without_mapping dC3 mC3 eC3 (by decide)).2 0 _ _ rfl rfl⟩

/-- Concrete substitution map for the mapping-availability inputs. -/
def mC4 : TypeSubstMap := [(0, 1)]

/-- Concrete one-slot store for the mapping-availability inputs. -/
def eC4 : DeclEngine := ⟨[⟨⟨0, none⟩, none⟩]⟩

/-- Concrete trait declaration with one trait-fn interface entry. -/
def dC4 : TyTraitDecl :=
  ⟨"t", [], ⟨"s", 0⟩, [.TraitFn ⟨"f", 0, sp0⟩], [], [], .Public, [], sp0⟩

/-- C4 counterexample: the claim says the Declaration Mapping built
during substitution is returned or otherwise made available to the
caller. On a declaration whose interface surface holds one trait-fn
entry, the internally built mapping is non-empty, yet the caller-visible
result of `subst_inner` (the Rust function mutates `self` and the store
and returns unit) is exactly the mapping-free projection of the full
computation: the mapping is dropped inside the call. -/
theorem subst_inner_discards_nonempty_decl_mapping :
    subst_inner dC4 mC4 eC4
        = ((subst_inner_full dC4 mC4 eC4).1, (subst_inner_full dC4 mC4 eC4).2.1)
      ∧ (subst_inner_full dC4 mC4 eC4).2.2 ≠ [] := by decide

/-- C4 as amended: the Declaration Mapping is a local of `subst_inner`
that is discarded when the function returns; for every input the
caller-visible result is exactly the rewritten declaration and the grown
store, with no mapping component. -/
theorem subst_inner_returns_no_decl_mapping (d : TyTraitDecl) (m : TypeSubstMap) (e : DeclEngine) :
    subst_inner d m e = ((subst_inner_full d m e).1, (subst_inner_full d m e).2.1) :=
  subst_inner_eq_full d m e

/-- C5: during interface-surface substitution every trait-fn and every
constant old handle is inserted as a key in the Declaration Mapping,
mapped to the fresh handle now stored at the same surface position, and
every mapping entry is keyed by a trait-fn or constant identity — no
associated-type old handle is ever inserted. -/
theorem interface_surface_mapping_completeness (d : TyTraitDecl) (m : TypeSubstMap) (e : DeclEngine) :
    (∀ (i : Nat) (r : DeclRef), d.interface_surface[i]? = some (.TraitFn r) →
        ∃ r2, (subst_inner_full d m e).1.interface_surface[i]? = some (.TraitFn r2)
          ∧ (AssociatedItemDeclId.traitFn r.id, AssociatedItemDeclId.traitFn r2.id)
              ∈ (subst_inner_full d m e).2.2)
      ∧ (∀ (i : Nat) (r : DeclRef), d.interface_surface[i]? = some (.Constant r) →
          ∃ r2, (subst_inner_full d m e).1.interface_surface[i]? = some (.Constant r2)
            ∧ (AssociatedItemDeclId.constant r.id, AssociatedItemDeclId.constant r2.id)
                ∈ (subst_inner_full d m e).2.2)
      ∧ (∀ kv : AssociatedItemDeclId × AssociatedItemDeclId,
          kv ∈ (subst_inner_full d m e).2.2 →
          (∃ a b, kv = (AssociatedItemDeclId.traitFn a, AssociatedItemDeclId.traitFn b))
            ∨ (∃ a b, kv = (AssociatedItemDeclId.constant a, AssociatedItemDeclId.constant b)))
      ∧ (∀ (i : Nat) (r : DeclRef) (v : AssociatedItemDeclId),
          d.interface_surface[i]? = some (.Typ r) →
          (AssociatedItemDeclId.traitType r.id, v) ∉ (subst_inner_full d m e).2.2) := by
  have hsurf : (subst_inner_full d m e).1.interface_surface
      = (substInterfaceSurface m d.interface_surface e []).1 := rfl
  have hmap : (subst_inner_full d m e).2.2
      = (substInterfaceSurface m d.interface_surface e []).2.2 := rfl
  refine ⟨?_, ?_, ?_, ?_⟩
  · intro i r h
    rw [hsurf, hmap]
    exact substInterfaceSurface_traitFn m d.interface_surface e [] i r h
  · intro i r h
    rw [hsurf, hmap]
    exact substInterfaceSurface_constant m d.interface_surface e [] i r h
  · intro kv h
    rw [hmap] at h
    rcases substInterfaceSurface_keys m d.interface_surface e [] kv h with h2 | h2 | h2
    · simp at h2
    · exact Or.inl h2
    · exact Or.inr h2
  · intro i r v _ hmem
    rw [hmap] at hmem
    rcases substInterfaceSurface_keys m d.interface_surface e [] _ hmem with h2 | h2 | h2
    · simp at h2
    · obtain ⟨a, b, h3⟩ := h2
      simp at h3
    · obtain ⟨a, b, h3⟩ := h2
      simp at h3

/-- Concrete substitution map for the mapping-completeness inputs. -/
def mC5 : TypeSubstMap := [(0, 1)]

/-- Concrete three-slot store for the mapping-completeness inputs. -/
def eC5 : DeclEngine :=
  ⟨[⟨⟨0, none⟩, none⟩, ⟨⟨1, none⟩, none⟩, ⟨⟨2, none⟩, none⟩]⟩

/-- Concrete trait declaration with one interface entry of each variant. -/
def dC5 : TyTraitDecl :=
  ⟨"t", [], ⟨"s", 0⟩,
    [.TraitFn ⟨"f", 0, sp0⟩, .Constant ⟨"c", 1, sp0⟩, .Typ ⟨"y", 2, sp0⟩],
    [], [], .Public, [], sp0⟩

/-- Closed instance of the C5 statement at a concrete input with one
interface entry of each variant. -/
theorem interface_surface_mapping_completeness_witness :
    (∃ r2, (subst_inner_full dC5 mC5 eC5).1.interface_surface[0]? = some (.TraitFn r2)
        ∧ (AssociatedItemDeclId.traitFn 0, AssociatedItemDeclId.traitFn r2.id)
            ∈ (subst_inner_full dC5 mC5 eC5).2.2)
      ∧ (∃ r2, (subst_inner_full dC5 mC5 eC5).1.interface_surface[1]? = some (.Constant r2)
          ∧ (AssociatedItemDeclId.constant 1, AssociatedItemDeclId.constant r2.id)
              ∈ (subst_inner_full dC5 mC5 eC5).2.2)
      ∧ ((AssociatedItemDeclId.traitType 2, AssociatedItemDeclId.traitType 9)
          ∉ (subst_inner_full dC5 mC5 eC5).2.2) :=
  ⟨(interface_surface_mapping_completeness dC5 mC5 eC5).1 0 ⟨"f", 0, sp0⟩ rfl,
   (interface_surface_mapping_completeness dC5 mC5 eC5).2.1 1 ⟨"c", 1, sp0⟩ rfl,
   (interface_surface_mapping_completeness dC5 mC5 eC5).2.2.2 2 ⟨"y", 2, sp0⟩
     (AssociatedItemDeclId.traitType 9) rfl⟩

/-- C6: after substituting a trait declaration with a non-empty
substitution map over a store in which all of its handles are live,
every interface-surface handle and every item handle of the result
differs from the corresponding handle of the template: each was
rewritten to the identity of a freshly inserted store entry. -/
theorem subst_produces_disjoint_identities (d : TyTraitDecl) (m : TypeSubstMap) (e : DeclEngine)
    (hm : m ≠ []) (hv : handlesValid d e = true) :
    (∀ (i : Nat) (it it2 : TyTraitInterfaceItem),
        d.interface_surface[i]? = some it →
        (subst_inner d m e).1.interface_surface[i]? = some it2 →
        it2.refId ≠ it.refId)
      ∧ (∀ (i : Nat) (it it2 : TyTraitItem),
          d.items[i]? = some it →
          (subst_inner d m e).1.items[i]? = some it2 →
          TyTraitItem.refId it2 ≠ TyTraitItem.refId it) := by
  simp only [handlesValid, Bool.and_eq_true, List.all_eq_true, decide_eq_true_eq] at hv
  have hdecl : (subst_inner d m e).1 = (subst_inner_full d m e).1 := by
    rw [subst_inner_eq_full]
  have hsurf : (subst_inner_full d m e).1.interface_surface
      = (substInterfaceSurface m d.interface_surface e []).1 := rfl
  have hitems : (subst_inner_full d m e).1.items
      = (substItems m d.items (substInterfaceSurface m d.interface_surface e []).2.1).1 := rfl
  refine ⟨?_, ?_⟩
  · intro i it it2 h1 h2
    rw [hdecl, hsurf] at h2
    have hnew := substInterfaceSurface_ids m d.interface_surface e [] i it2 h2
    have hold : it.refId < e.len := hv.1 it (mem_of_idx h1)
    omega
  · intro i it it2 h1 h2
    rw [hdecl, hitems] at h2
    have hnew := substItems_ids m d.items _ i it2 h2
    have hold : TyTraitItem.refId it < e.len := hv.2 it (mem_of_idx h1)
    have hlen := (substInterfaceSurface_len m d.interface_surface e []).2
    omega

/-- Concrete substitution map for the disjoint-identities inputs. -/
def mC6 : TypeSubstMap := [(0, 7)]

/-- Concrete two-slot store for the disjoint-identities inputs. -/
def eC6 : DeclEngine := ⟨[⟨⟨0, none⟩, none⟩, ⟨⟨1, none⟩, none⟩]⟩

/-- Concrete trait declaration with one interface entry and one item. -/
def dC6 : TyTraitDecl :=
  ⟨"t", [], ⟨"s", 0⟩, [.TraitFn ⟨"f", 0, sp0⟩], [.Fn ⟨"g", 1, sp0⟩], [], .Public, [], sp0⟩

/-- Closed instance of the C6 statement at a concrete input. -/
theorem subst_produces_disjoint_identities_witness :
    mC6 ≠ [] ∧ handlesValid dC6 eC6 = true
      ∧ TyTraitInterfaceItem.refId (.TraitFn ⟨"f", 2, sp0⟩)
          ≠ TyTraitInterfaceItem.refId (.TraitFn ⟨"f", 0, sp0⟩)
      ∧ TyTraitItem.refId (.Fn ⟨"g", 3, sp0⟩) ≠ TyTraitItem.refId (.Fn ⟨"g", 1, sp0⟩) :=
  ⟨by decide, by decide,
   (subst_produces_disjoint_identities dC6 mC6 eC6 (by decide) (by decide)).1 0 _ _ rfl rfl,
   (subst_produces_disjoint_identities dC6 mC6 eC6 (by decide) (by decide)).2 0 _ _ rfl rfl⟩

/-- Replacing a body preserves the number of slots in the store. -/
theorem replaceBodyList_length (l : List Slot) :
    ∀ (i : Nat) (b : DeclBody), (replaceBodyList l i b).length = l.length := by
  induction l with
  | nil => intro i b; rfl
  | cons s rest ih => intro i b; cases i <;> simp [replaceBodyList, ih]

/-- Replacing a body leaves every other slot unchanged. -/
theorem replaceBodyList_get_ne (l : List Slot) :
    ∀ (i : Nat) (b : DeclBody) (j : Nat), j ≠ i →
      (replaceBodyList l i b)[j]? = l[j]? := by
  induction l with
  | nil => intro i b j _; rfl
  | cons s rest ih =>
    intro i b j hne
    cases i with
    | zero =>
      cases j with
      | zero => exact absurd rfl hne
      | succ j2 => simp [replaceBodyList]
    | succ i2 =>
      cases j with
      | zero => simp [replaceBodyList]
      | succ j2 =>
        simp only [replaceBodyList, List.getElem?_cons_succ]
        exact ih i2 b j2 (fun hc => hne (by rw [hc]))

/-- Replacing a body at a live index stores exactly the new body there. -/
theorem replaceBodyList_get_eq (l : List Slot) :
    ∀ (i : Nat) (b : DeclBody), i < l.length →
      ((replaceBodyList l i b)[i]?).map (fun s => s.body) = some b := by
  induction l with
  | nil => intro i b h; simp at h
  | cons s rest ih =>
    intro i b h
    cases i with
    | zero => simp [replaceBodyList]
    | succ i2 =>
      simp only [replaceBodyList, List.getElem?_cons_succ]
      exact ih i2 b (by simpa using h)

/-- C8: finalization of a trait item is variant-directed. For a function
or constant item whose body finalization succeeds, the current body is
fetched through the item's handle and the finalized body is written back
via `replace` on that same handle: the store keeps its size, every other
slot is untouched, and the slot at the handle now holds the finalized
body (the handle identity is preserved). For an associated-type item the
pass succeeds and returns the store completely unchanged. -/
theorem trait_item_finalization_by_variant (fin : DeclBody → Except Unit DeclBody)
    (r : DeclRef) (e : DeclEngine) (b2 : DeclBody)
    (hr : r.id < e.len) (hok : fin (e.getBodyD r.id) = Except.ok b2) :
    type_check_finalize fin (.Fn r) e = .ok (e.replace r.id b2)
      ∧ type_check_finalize fin (.Constant r) e = .ok (e.replace r.id b2)
      ∧ (e.replace r.id b2).len = e.len
      ∧ (∀ j : Nat, j ≠ r.id → (e.replace r.id b2).get j = e.get j)
      ∧ ((e.replace r.id b2).get r.id).map (fun s => s.body) = some b2
      ∧ (∀ (e2 : DeclEngine) (r2 : DeclRef), type_check_finalize fin (.Typ r2) e2 = .ok e2) := by
  refine ⟨?_, ?_, ?_, ?_, ?_, ?_⟩
  · simp [type_check_finalize, hok]
  · simp [type_check_finalize, hok]
  · simp [DeclEngine.replace, DeclEngine.len, replaceBodyList_length]
  · intro j hj
    simp only [DeclEngine.replace, DeclEngine.get]
    exact replaceBodyList_get_ne e.slots r.id b2 j hj
  · simp only [DeclEngine.replace, DeclEngine.get]
    exact replaceBodyList_get_eq e.slots r.id b2 hr
  · intro e2 r2; rfl

/-- Concrete body finalizer that succeeds with a fixed body. -/
def finC8 : DeclBody → Except Unit DeclBody := fun _ => .ok ⟨9, none⟩

/-- Concrete one-slot store for the finalization inputs. -/
def eC8 : DeclEngine := ⟨[⟨⟨4, none⟩, none⟩]⟩

/-- Concrete handle to slot 0 of `eC8`. -/
def rC8 : DeclRef := ⟨"f", 0, sp0⟩

/-- Closed instance of the C8 statement at a concrete input. -/
theorem trait_item_finalization_by_variant_witness :
    rC8.id < eC8.len
      ∧ finC8 (eC8.getBodyD rC8.id) = Except.ok ⟨9, none⟩
      ∧ type_check_finalize finC8 (.Fn rC8) eC8 = .ok (eC8.replace rC8.id ⟨9, none⟩)
      ∧ type_check_finalize finC8 (.Typ rC8) eC8 = .ok eC8 :=
  ⟨by decide, rfl,
   (trait_item_finalization_by_variant finC8 rC8 eC8 ⟨9, none⟩ (by decide) rfl).1,
   (trait_item_finalization_by_variant finC8 rC8 eC8 ⟨9, none⟩ (by decide) rfl).2.2.2.2.2 eC8 rC8⟩
